import Mathlib

/-!
# Verification of `docfmt`'s configuration engine (`src/config.rs`)

Shallow embedding of the `Config` methods of the `docfmt` repository:
deep merge of JSON-like values (`Config::merge`), data-file loading and
merging (`Config::read_data`), template-registry construction
(`Config::new_registry`) and the output-write guard (`Config::write_output`).

External crates (`serde_json`/`toml` parsers, the filesystem, the
`handlebars` registry's template compilation) are modelled as oracle
functions supplied in environment structures; everything else is translated
directly from the Rust source.
-/

namespace Docfmt

/-- The `serde_json::Value` type: null / bool / number / string / array / object.
Objects are association lists of string keys (the Rust side is a
`serde_json::Map`, a key-unique map); numbers are modelled as integers. -/
inductive JValue where
  | null
  | bool (b : Bool)
  | num (n : Int)
  | str (s : String)
  | arr (elems : List JValue)
  | obj (fields : List (String × JValue))

/-- The `serde_json::Value::is_null` test. -/
def JValue.isNull : JValue → Bool
  | .null => true
  | _ => false

/-- Whether a value is a JSON object (mapping). -/
def JValue.isObj : JValue → Bool
  | .obj _ => true
  | _ => false

/-- Lookup of a key in an object's field list (`Map::get` on the
key-unique map). -/
def getKeyList : List (String × JValue) → String → Option JValue
  | [], _ => none
  | (k', v) :: rest, k => if k' = k then some v else getKeyList rest k

/-- The `Map::remove` operation: drop the entries with the given key. -/
def removeKey : List (String × JValue) → String → List (String × JValue)
  | [], _ => []
  | (k', v) :: rest, k =>
    if k' = k then removeKey rest k else (k', v) :: removeKey rest k

/-- Store a value at a key: replace the first binding in place, or append
if the key is absent (`Map::entry(k)` slot assignment). -/
def setKey : List (String × JValue) → String → JValue → List (String × JValue)
  | [], k, v => [(k, v)]
  | (k', v') :: rest, k, v =>
    if k' = k then (k, v) :: rest else (k', v') :: setKey rest k v

mutual

/-- Embeds `Config::merge` (src/config.rs:262-278): if both sides are objects,
fold the incoming fields into the accumulated object; otherwise the
incoming value replaces the accumulated value (`*a = b`). -/
def merge : JValue → JValue → JValue
  | .obj a, .obj b => .obj (mergeFields a b)
  | _, b => b

/-- The `for (k, v) in b` loop of `Config::merge`: a null incoming value
removes the key (`a.remove(&k)`); otherwise the incoming value is merged
into `a.entry(k).or_insert(Value::Null)`, i.e. into the accumulated value
at the key, or into a null placeholder when the key is new. -/
def mergeFields : List (String × JValue) → List (String × JValue) →
    List (String × JValue)
  | a, [] => a
  | a, (k, v) :: rest =>
    if v.isNull then
      mergeFields (removeKey a k) rest
    else
      mergeFields (setKey a k (merge ((getKeyList a k).getD .null) v)) rest

end

/-- Field lookup through a `JValue`: a key's value when the value is an
object, `none` otherwise. -/
def getJ : JValue → String → Option JValue
  | .obj fields, k => getKeyList fields k
  | _, _ => none

/-! ## Path model

Paths are strings with `/` as separator (the repository targets Unix:
it uses `std::os::unix::prelude::OsStrExt`). The functions below embed the
`std::path::Path` operations the source uses: `file_name`, `file_stem`,
`extension`, `with_extension("")`, `parent` and `strip_prefix`. -/

/-- Split a character list into its `/`-separated segments. -/
def splitSegs : List Char → List (List Char)
  | [] => [[]]
  | c :: rest =>
    if c = '/' then [] :: splitSegs rest
    else
      match splitSegs rest with
      | [] => [[c]]
      | s :: ss => (c :: s) :: ss

/-- The last `/`-separated segment: `Path::file_name` for the relative
slash paths the walk produces. -/
def lastSeg (cs : List Char) : List Char :=
  (splitSegs cs).foldl (fun _ s => s) []

/-- Split a file name at its last dot: `some (before, after)` when the name
contains a dot, `none` otherwise. -/
def splitLastDot : List Char → Option (List Char × List Char)
  | [] => none
  | c :: rest =>
    match splitLastDot rest with
    | some (st, ex) => some (c :: st, ex)
    | none => if c = '.' then some ([], rest) else none

/-- The `split_file_at_dot` helper of Rust's std: a file name splits into stem and
extension at the last dot, except that `".."` and a name whose only dot is
the leading one (`".hidden"`) have no extension. -/
def stemAndExt (name : List Char) : List Char × Option (List Char) :=
  if name = ['.', '.'] then (name, none)
  else
    match splitLastDot name with
    | none => (name, none)
    | some (st, ex) =>
      if st = [] then (name, none)
      else (st, some ex)

/-- The `Path::extension` operation. -/
def extensionOf (p : String) : Option String :=
  ((stemAndExt (lastSeg p.toList)).2).map String.mk

/-- The `Path::file_stem` operation. -/
def fileStem (p : String) : String :=
  String.mk (stemAndExt (lastSeg p.toList)).1

/-- The hidden-file test of `new_registry`:
`stem.as_bytes().first() == Some(&b'.')` (the first UTF-8 byte is `.` iff
the first character is `.`). -/
def startsWithDot (s : String) : Bool :=
  match s.toList with
  | '.' :: _ => true
  | _ => false

/-- The `Path::with_extension("")` operation: drop the extension (and its dot) when there
is one. -/
def withExtensionEmpty (p : String) : String :=
  match (stemAndExt (lastSeg p.toList)).2 with
  | some e => String.mk (p.toList.take (p.toList.length - (e.length + 1)))
  | none => p

/-- Join segments back with `/`. -/
def joinSegs : List (List Char) → List Char
  | [] => []
  | [s] => s
  | s :: ss => s ++ '/' :: joinSegs ss

/-- The `Path::parent().unwrap_or(Path::new(""))` operation for relative slash paths:
everything before the last segment. -/
def parentPath (p : String) : String :=
  String.mk (joinSegs (splitSegs p.toList).dropLast)

/-- The `Path::strip_prefix(root).unwrap()` operation under the walk invariant that the
entry's path is `root ++ "/" ++ rest` (or that `root` is empty, in which
case the path is returned unchanged). -/
def stripRoot (root p : String) : String :=
  if root = "" then p
  else String.mk (p.toList.drop (root.toList.length + 1))

/-! ## Data-file loading: `Config::read_data` (src/config.rs:187-244)

The filesystem and the external parser crates are oracles supplied in a
`DataEnv`: `readFile` models `File::open` followed by `read_to_string`
(`none` for an open or read failure), `parseJson` models
`serde_json::from_str`, and `parseToml` models `toml::from_str` composed
with the `serde_json::to_value` conversion (`none` when either step
fails). -/

structure DataEnv where
  readFile : String → Option String
  parseJson : String → Option JValue
  parseToml : String → Option JValue

/-- Processing of one declared data file in the `read_data` loop: open and
read it, then dispatch on the exact extension — `json` parses as JSON,
`toml` parses as TOML and converts, anything else is an unsupported
format. `none` is any of the failure `continue`s of the loop body. -/
def readDataFile (env : DataEnv) (path : String) : Option JValue :=
  match env.readFile path with
  | none => none
  | some content =>
    if extensionOf path = some "json" then env.parseJson content
    else if extensionOf path = some "toml" then env.parseToml content
    else none

/-- One iteration of the `read_data` loop over the state
`(failed, data, error log)`: a failing file sets `failed`, logs the path
and leaves `data` alone; a successful file is merged into `data`. -/
def readDataStep (env : DataEnv) (st : Bool × JValue × List String)
    (path : String) : Bool × JValue × List String :=
  match readDataFile env path with
  | none => (true, st.2.1, st.2.2 ++ [path])
  | some v => (st.1, merge st.2.1 v, st.2.2)

/-- Embeds `Config::read_data`: start from a clone of the inline `data` block,
fold every declared data file through the loop, and return the merged
context only when no file failed. The second component is the log of
per-file errors (the paths reported by the `error!` calls). -/
def read_data (env : DataEnv) (inline : JValue) (datafiles : List String) :
    Option JValue × List String :=
  let r := datafiles.foldl (readDataStep env) (false, inline, [])
  (if r.1 then none else some r.2.1, r.2.2)

/-! ## Registry construction: `Config::new_registry` (src/config.rs:63-184)

The directory walk (`walkdir::WalkDir`) is modelled by a list of items it
yields: either an error (`WalkItem.err`) or an entry with its path, a flag
telling whether its metadata reads successfully, whether the metadata says
it is a regular file, and whether `handlebars`' template compilation of the
file succeeds (`register_template_file` errors on unreadable or invalid
template sources). The registry is the list of `(name, path)` pairs passed
to `register_template_file`, in registration order. -/

inductive WalkItem where
  | err
  | entry (path : String) (metaOk : Bool) (isFile : Bool) (regOk : Bool)

/-- The per-entry body of the directory walk in `new_registry`
(src/config.rs:87-162), acting on the `(failed, registry)` state:
a walk error marks failure; an entry without an extension, or with an
extension outside the allowed list, is skipped silently; a metadata error
marks failure; a non-file is skipped; a file whose stem starts with `.` is
skipped; otherwise the template name is the entry's path with the walk
root stripped and the extension removed, and a registration error marks
failure. -/
def procItem (exts : List String) (root : String)
    (st : Bool × List (String × String)) : WalkItem →
    Bool × List (String × String)
  | .err => (true, st.2)
  | .entry path metaOk isFile regOk =>
    match extensionOf path with
    | none => st
    | some ext =>
      if ext ∈ exts then
        if metaOk then
          if isFile then
            if startsWithDot (fileStem path) then st
            else
              let name := withExtensionEmpty (stripRoot root path)
              if regOk then (st.1, st.2 ++ [(name, path)])
              else (true, st.2)
          else st
        else (true, st.2)
      else st

/-- The whole walk of one include directory. -/
def walkDir (exts : List String) (root : String)
    (st : Bool × List (String × String)) (items : List WalkItem) :
    Bool × List (String × String) :=
  items.foldl (procItem exts root) st

/-- One include root as `new_registry` classifies it: an existing
directory (with the items its walk yields), an existing plain file (with
its registration outcome), or a path that is neither (`is_dir()` and
`is_file()` both false, e.g. a nonexistent path). -/
inductive IncludeRoot where
  | dir (path : String) (items : List WalkItem)
  | file (path : String) (regOk : Bool)
  | missing

/-- Processing of one include root (the body of the `for path in
&self.include` loop): a directory is walked with its parent as the strip
root; a plain file registers under its own stem; anything else falls
through both branches and is skipped. -/
def procRoot (exts : List String) (st : Bool × List (String × String)) :
    IncludeRoot → Bool × List (String × String)
  | .dir path items => walkDir exts (parentPath path) st items
  | .file path regOk =>
    if regOk then (st.1, st.2 ++ [(fileStem path, path)])
    else (true, st.2)
  | .missing => st

/-- Embeds `Config::new_registry`: register the main template under `"main"`
(failure marks the run failed), process every include root, and return the
registry only when nothing failed. `mainOk` models whether
`register_template_file("main", template)` succeeds. -/
def new_registry (exts : List String) (template : String) (mainOk : Bool)
    (roots : List IncludeRoot) : Option (List (String × String)) :=
  let st0 : Bool × List (String × String) :=
    (!mainOk, if mainOk then [("main", template)] else [])
  let r := roots.foldl (procRoot exts) st0
  if r.1 then none else some r.2

/-! ## Output writing: `Config::write_output` (src/config.rs:247-260) -/

/-- The state of the output path: whether a file exists there and what it
holds. -/
structure OutFile where
  here : Bool
  content : String

/-- The environment of one `write_output` call: the current state of the
output path, whether `std::fs::write` would succeed, and the state the
path is left in by a failed write. -/
structure OutEnv where
  file : OutFile
  writeOk : Bool
  afterFailedWrite : OutFile

/-- Embeds `Config::write_output`: refuse (returning `false` before any write)
when the output exists and `force` is not set; otherwise attempt the
write, returning `false` on an I/O error and `true` on success. The second
component is the resulting state of the output path. -/
def write_output (force : Bool) (env : OutEnv) (content : String) :
    Bool × OutFile :=
  if env.file.here && !force then (false, env.file)
  else if env.writeOk then (true, ⟨true, content⟩)
  else (false, env.afterFailedWrite)

/-! ## Lemmas about the deep merge -/

@[simp]
theorem merge_obj_obj (a b : List (String × JValue)) :
    merge (.obj a) (.obj b) = .obj (mergeFields a b) := rfl

/-- When either side is not an object, `Config::merge` falls through to
`*a = b`. -/
theorem merge_of_not_obj {a b : JValue}
    (h : a.isObj = false ∨ b.isObj = false) : merge a b = b := by
  cases a <;> cases b <;> simp_all [merge, JValue.isObj]

@[simp]
theorem mergeFields_nil (a : List (String × JValue)) :
    mergeFields a [] = a := rfl

theorem mergeFields_cons (a : List (String × JValue)) (k : String)
    (v : JValue) (rest : List (String × JValue)) :
    mergeFields a ((k, v) :: rest) =
      if v.isNull then mergeFields (removeKey a k) rest
      else mergeFields (setKey a k (merge ((getKeyList a k).getD .null) v))
        rest := rfl

@[simp]
theorem getKeyList_removeKey_self (a : List (String × JValue)) (k : String) :
    getKeyList (removeKey a k) k = none := by
  induction a with
  | nil => rfl
  | cons hd tl ih =>
    obtain ⟨k', v⟩ := hd
    by_cases h : k' = k <;> simp [removeKey, getKeyList, h, ih]

theorem getKeyList_removeKey_ne (a : List (String × JValue)) {k' k : String}
    (h : k' ≠ k) : getKeyList (removeKey a k') k = getKeyList a k := by
  induction a with
  | nil => rfl
  | cons hd tl ih =>
    obtain ⟨k₀, v⟩ := hd
    by_cases h₀ : k₀ = k'
    · subst h₀
      simp [removeKey, getKeyList, h, ih]
    · by_cases h₁ : k₀ = k <;>
        simp [removeKey, getKeyList, h₀, h₁, Ne.symm h, ih]

@[simp]
theorem getKeyList_setKey_self (a : List (String × JValue)) (k : String)
    (v : JValue) : getKeyList (setKey a k v) k = some v := by
  induction a with
  | nil => simp [setKey, getKeyList]
  | cons hd tl ih =>
    obtain ⟨k₀, v₀⟩ := hd
    by_cases h : k₀ = k <;> simp [setKey, getKeyList, h, ih]

theorem getKeyList_setKey_ne (a : List (String × JValue)) {k' k : String}
    (v : JValue) (h : k' ≠ k) :
    getKeyList (setKey a k' v) k = getKeyList a k := by
  induction a with
  | nil => simp [setKey, getKeyList, h]
  | cons hd tl ih =>
    obtain ⟨k₀, v₀⟩ := hd
    by_cases h₀ : k₀ = k'
    · subst h₀
      simp [setKey, getKeyList, h, ih]
    · by_cases h₁ : k₀ = k <;>
        simp [setKey, getKeyList, h₀, h₁, Ne.symm h, ih]

/-- Keys that the incoming mapping does not mention are untouched by the
field loop. -/
theorem getKeyList_mergeFields_not_mem {k : String}
    (a b : List (String × JValue)) (h : k ∉ b.map Prod.fst) :
    getKeyList (mergeFields a b) k = getKeyList a k := by
  induction b generalizing a with
  | nil => rfl
  | cons hd rest ih =>
    obtain ⟨k₀, v₀⟩ := hd
    simp only [List.map_cons, List.mem_cons] at h
    push_neg at h
    obtain ⟨hne, hrest⟩ := h
    rw [mergeFields_cons]
    by_cases hv : v₀.isNull
    · simp only [hv, if_pos]
      rw [ih _ hrest, getKeyList_removeKey_ne _ (Ne.symm hne)]
    · simp only [hv, if_neg, Bool.false_eq_true, not_false_iff]
      rw [ih _ hrest, getKeyList_setKey_ne _ _ (Ne.symm hne)]

/-- Core of the null-deletion property: a key carried with a null value by
the (key-unique) incoming mapping is absent after the field loop. -/
theorem getKeyList_mergeFields_null {k : String}
    (a b : List (String × JValue)) (hmem : (k, JValue.null) ∈ b)
    (hnd : (b.map Prod.fst).Nodup) :
    getKeyList (mergeFields a b) k = none := by
  induction b generalizing a with
  | nil => cases hmem
  | cons hd rest ih =>
    obtain ⟨k₀, v₀⟩ := hd
    simp only [List.map_cons, List.nodup_cons] at hnd
    obtain ⟨hk₀, hndrest⟩ := hnd
    rcases List.mem_cons.mp hmem with heq | hrest
    · obtain ⟨rfl, rfl⟩ := Prod.mk.injEq .. ▸ heq
      rw [mergeFields_cons]
      simp only [JValue.isNull, if_pos]
      rw [getKeyList_mergeFields_not_mem _ _ hk₀]
      exact getKeyList_removeKey_self a k
    · rw [mergeFields_cons]
      by_cases hv : v₀.isNull <;> simp only [hv, if_pos, if_neg,
        Bool.false_eq_true, not_false_iff] <;> exact ih _ hrest hndrest

/-- Merging anything into a null accumulated value replaces it wholesale
(`Value::Null` is not an object, so `*a = b` runs). -/
theorem merge_null_left (v : JValue) : merge .null v = v := by
  cases v <;> rfl

/-! ## Lemmas about the `read_data` loop -/

/-- The `failed` flag after the loop: set iff it was set before or some
file fails. -/
theorem readData_foldl_failed (env : DataEnv) (paths : List String)
    (st : Bool × JValue × List String) :
    (paths.foldl (readDataStep env) st).1 =
      (st.1 || paths.any fun p => (readDataFile env p).isNone) := by
  induction paths generalizing st with
  | nil => simp
  | cons p rest ih =>
    simp only [List.foldl_cons, List.any_cons]
    rw [ih]
    rcases h : readDataFile env p with _ | v <;>
      simp [readDataStep, h, Bool.or_assoc]

/-- The error log after the loop: the previously logged paths followed by
every failing file, in declaration order. -/
theorem readData_foldl_log (env : DataEnv) (paths : List String)
    (st : Bool × JValue × List String) :
    (paths.foldl (readDataStep env) st).2.2 =
      st.2.2 ++ paths.filter fun p => (readDataFile env p).isNone := by
  induction paths generalizing st with
  | nil => simp
  | cons p rest ih =>
    simp only [List.foldl_cons, List.filter_cons]
    rw [ih]
    rcases h : readDataFile env p with _ | v <;>
      simp [readDataStep, h]

/-! ## Lemmas about the directory walk -/

/-- Any pair added to the registry state by one walk item has a
non-hidden file stem. -/
theorem procItem_mem (exts : List String) (root : String)
    (st : Bool × List (String × String)) (it : WalkItem) {n p : String}
    (h : (n, p) ∈ (procItem exts root st it).2) :
    (n, p) ∈ st.2 ∨ startsWithDot (fileStem p) = false := by
  cases it with
  | err => exact Or.inl h
  | entry path metaOk isFile regOk =>
    rcases hext : extensionOf path with _ | ext <;>
      simp only [procItem, hext] at h
    · exact Or.inl h
    · by_cases h1 : ext ∈ exts
      · by_cases h2 : metaOk = true
        · by_cases h3 : isFile = true
          · by_cases h4 : startsWithDot (fileStem path) = true
            · simp only [h1, h2, h3, h4, if_true, if_pos] at h
              exact Or.inl h
            · by_cases h5 : regOk = true
              · simp only [h1, h2, h3, h4, h5, if_true, if_pos, if_neg,
                  Bool.false_eq_true, not_false_iff, List.mem_append,
                  List.mem_singleton] at h
                rcases h with h | h
                · exact Or.inl h
                · right
                  obtain ⟨-, rfl⟩ := Prod.mk.injEq .. ▸ h
                  simpa using h4
              · simp only [h1, h2, h3, h4, h5, if_true, if_pos, if_neg,
                  Bool.false_eq_true, not_false_iff] at h
                exact Or.inl h
          · simp only [h1, h2, h3, if_true, if_pos, if_neg,
              Bool.false_eq_true, not_false_iff] at h
            exact Or.inl h
        · simp only [h1, h2, if_true, if_pos, if_neg,
            Bool.false_eq_true, not_false_iff] at h
          exact Or.inl h
      · simp only [h1, if_neg, not_false_iff] at h
        exact Or.inl h

/-- Any pair in the registry after a whole walk was either there before
the walk or has a non-hidden file stem. -/
theorem walkDir_mem (exts : List String) (root : String)
    (items : List WalkItem) (st : Bool × List (String × String))
    {n p : String} (h : (n, p) ∈ (walkDir exts root st items).2) :
    (n, p) ∈ st.2 ∨ startsWithDot (fileStem p) = false := by
  induction items generalizing st with
  | nil => exact Or.inl h
  | cons it rest ih =>
    rcases ih (procItem exts root st it) h with h' | h'
    · exact procItem_mem exts root st it h'
    · exact Or.inr h'

/-! ## Claim theorems -/

/-- C1: Deep merge performs null-deletion: when both the accumulated and
the incoming value are mappings, every key of the (key-unique) incoming
mapping whose value is null is removed from the accumulated mapping; in
particular merging `{"a": {"x": 1, "y": 2}}` then `{"a": {"x": null}}`
yields `{"a": {"y": 2}}`. -/
theorem merge_null_deletion (a b : List (String × JValue)) (k : String)
    (hmem : (k, JValue.null) ∈ b) (hnd : (b.map Prod.fst).Nodup) :
    getJ (merge (.obj a) (.obj b)) k = none ∧
    merge (.obj [("a", .obj [("x", .num 1), ("y", .num 2)])])
        (.obj [("a", .obj [("x", .null)])]) =
      .obj [("a", .obj [("y", .num 2)])] :=
  ⟨getKeyList_mergeFields_null a b hmem hnd, rfl⟩

/-- Witness for C1 at a concrete input: merging `{"x": null}` into
`{"x": 1, "y": 2}` leaves no binding for `"x"`. -/
theorem merge_null_deletion_witness :
    getJ (merge (.obj [("x", .num 1), ("y", .num 2)])
      (.obj [("x", .null)])) "x" = none :=
  (merge_null_deletion [("x", .num 1), ("y", .num 2)] [("x", .null)] "x"
    (List.mem_singleton.mpr rfl) (by simp)).1

/-- C3 counterexample: merging a fresh key `"a"` whose incoming value is
the mapping `{"x": null, "y": 1}` into the empty mapping does NOT drop the
null entry — the code inserts a null placeholder (not an empty mapping),
so the incoming mapping replaces it wholesale, `"x": null` included. -/
theorem merge_fresh_key_counterexample :
    merge (.obj []) (.obj [("a", .obj [("x", .null), ("y", .num 1)])]) =
      .obj [("a", .obj [("x", .null), ("y", .num 1)])] ∧
    getJ ((getJ (merge (.obj [])
        (.obj [("a", .obj [("x", .null), ("y", .num 1)])])) "a").getD .null)
      "x" = some .null ∧
    merge (.obj []) (.obj [("a", .obj [("x", .null), ("y", .num 1)])]) ≠
      .obj [("a", .obj [("y", .num 1)])] := by
  refine ⟨rfl, rfl, ?_⟩
  have h : merge (.obj []) (.obj [("a", .obj [("x", .null), ("y", .num 1)])])
      = .obj [("a", .obj [("x", .null), ("y", .num 1)])] := rfl
  rw [h]
  simp

/-- C3 (amended): in deep merge, when both sides are mappings and the
incoming value at a key is non-null, the merge recurses into the
accumulated value at that key; if the key is new, a NULL placeholder (not
an empty mapping) is inserted first, so the incoming value replaces the
placeholder wholesale and null entries inside a fresh key's incoming
mapping are retained, not dropped. -/
theorem merge_fresh_key_null_placeholder (a : List (String × JValue))
    (k : String) (v : JValue) (hv : v.isNull = false) :
    (getKeyList a k = none →
      getJ (merge (.obj a) (.obj [(k, v)])) k = some v) ∧
    (∀ old, getKeyList a k = some old →
      getJ (merge (.obj a) (.obj [(k, v)])) k = some (merge old v)) := by
  constructor
  · intro hnone
    simp [getJ, mergeFields_cons, hv, hnone, merge_null_left]
  · intro old hsome
    simp [getJ, mergeFields_cons, hv, hsome]

/-- Witness for the amended C3 at a concrete input: a fresh key `"a"`
carrying `{"x": null}` is stored verbatim. -/
theorem merge_fresh_key_null_placeholder_witness :
    getJ (merge (.obj []) (.obj [("a", .obj [("x", .null)])])) "a" =
      some (.obj [("x", .null)]) :=
  (merge_fresh_key_null_placeholder [] "a" (.obj [("x", .null)]) rfl).1 rfl

/-- C4: whenever either side of the deep merge is not a mapping, the
incoming value replaces the accumulated value wholesale — no element-wise
merging of sequences; in particular merging `{"a": [1,2]}` then
`{"a": [3]}` yields `{"a": [3]}`. -/
theorem merge_replacement (a b : JValue)
    (h : a.isObj = false ∨ b.isObj = false) :
    merge a b = b ∧
    merge (.obj [("a", .arr [.num 1, .num 2])])
        (.obj [("a", .arr [.num 3])]) =
      .obj [("a", .arr [.num 3])] :=
  ⟨merge_of_not_obj h, rfl⟩

/-- Witness for C4 at a concrete input: a number is replaced by a string. -/
theorem merge_replacement_witness :
    merge (.num 1) (.str "s") = .str "s" :=
  (merge_replacement (.num 1) (.str "s") (Or.inl rfl)).1

/-- C5: `read_data` is all-or-nothing with error aggregation: the error
log lists every failing data file (the loop continues past failures), and
a context is returned iff every declared data file opens, reads and parses
successfully. -/
theorem read_data_all_or_nothing (env : DataEnv) (inline : JValue)
    (paths : List String) :
    (read_data env inline paths).2 =
      paths.filter (fun p => (readDataFile env p).isNone) ∧
    ((read_data env inline paths).1.isSome ↔
      ∀ p ∈ paths, (readDataFile env p).isSome) := by
  constructor
  · simp only [read_data]
    rw [readData_foldl_log]
    simp
  · simp only [read_data]
    rw [readData_foldl_failed]
    simp only [Bool.false_or]
    rcases h : paths.any fun p => (readDataFile env p).isNone with _ | _
    · simp only [if_neg, Bool.false_eq_true, not_false_iff,
        Option.isSome_some, true_iff]
      intro p hp
      have h2 := List.any_eq_false.mp h p hp
      rw [Option.isSome_iff_ne_none]
      simpa using h2
    · simp only [if_pos, Option.isSome_none, Bool.false_eq_true, false_iff]
      intro hall
      obtain ⟨p, hp, hfail⟩ := List.any_eq_true.mp h
      have h3 := hall p hp
      rw [Option.isSome_iff_ne_none] at h3
      exact h3 (Option.isNone_iff_eq_none.mp hfail)

/-- C6: data-file format dispatch is by exact, case-sensitive extension:
extension `json` parses the content as JSON, extension `toml` parses it as
TOML (converted to the same value representation), and any other extension
— none included — fails the file. -/
theorem read_data_dispatch (env : DataEnv) (path content : String)
    (h : env.readFile path = some content) :
    (extensionOf path = some "json" →
      readDataFile env path = env.parseJson content) ∧
    (extensionOf path = some "toml" →
      readDataFile env path = env.parseToml content) ∧
    (extensionOf path ≠ some "json" → extensionOf path ≠ some "toml" →
      readDataFile env path = none) := by
  refine ⟨fun hj => ?_, fun ht => ?_, fun hj ht => ?_⟩
  · simp [readDataFile, h, hj]
  · have : extensionOf path ≠ some "json" := by
      rw [ht]; simp
    simp [readDataFile, h, this, ht]
  · simp [readDataFile, h, hj, ht]

/-- Witness for C6 at concrete inputs: with an oracle environment that
reads every file as `"c"`, a `.json` path dispatches to the JSON parser
while the different-cased `.JSON` and the extensionless path fail. -/
theorem read_data_dispatch_witness :
    readDataFile ⟨fun _ => some "c", fun s => some (.str s), fun _ => some .null⟩
      "d.json" =
      (⟨fun _ => some "c", fun s => some (.str s), fun _ => some .null⟩ :
        DataEnv).parseJson "c" ∧
    readDataFile ⟨fun _ => some "c", fun s => some (.str s), fun _ => some .null⟩
      "d.JSON" = none ∧
    readDataFile ⟨fun _ => some "c", fun s => some (.str s), fun _ => some .null⟩
      "d" = none :=
  ⟨(read_data_dispatch _ "d.json" "c" rfl).1 rfl,
   (read_data_dispatch _ "d.JSON" "c" rfl).2.2 (by decide) (by decide),
   (read_data_dispatch _ "d" "c" rfl).2.2 (by decide) (by decide)⟩

/-- C7: hidden-file exclusion during the directory walk checks only the
entry's own file stem: every registered pair has a non-hidden stem, while
a non-hidden file nested under a hidden directory is still registered. -/
theorem hidden_stem_never_registered (exts : List String) (root : String)
    (items : List WalkItem) (n p : String)
    (h : (n, p) ∈ (walkDir exts root (false, []) items).2) :
    startsWithDot (fileStem p) = false ∧
    walkDir ["md"] "" (false, [])
        [.entry ".h/file.md" true true true] =
      (false, [(".h/file", ".h/file.md")]) := by
  refine ⟨?_, rfl⟩
  rcases walkDir_mem exts root items (false, []) h with h' | h'
  · simp at h'
  · exact h'

/-- Witness for C7 at a concrete input: the registered entry of a
one-file walk has a non-hidden stem. -/
theorem hidden_stem_never_registered_witness :
    startsWithDot (fileStem "input1/file.md") = false :=
  (hidden_stem_never_registered ["md"] ""
    [.entry "input1/file.md" true true true] "input1/file" "input1/file.md"
    (by decide)).1

/-- C9: an include root that is neither an existing directory nor an
existing regular file is silently skipped: removing it from the include
list leaves the result of registry construction unchanged, so it registers
nothing, raises no error, and never by itself prevents a registry from
being returned. -/
theorem new_registry_skips_missing_root (exts : List String)
    (template : String) (mainOk : Bool)
    (roots₁ roots₂ : List IncludeRoot) :
    new_registry exts template mainOk (roots₁ ++ .missing :: roots₂) =
      new_registry exts template mainOk (roots₁ ++ roots₂) := by
  simp [new_registry, List.foldl_append, procRoot]

/-- C8: output writing is guarded: when the output exists and force is
unset, `write_output` returns `false` and leaves the file untouched; a
failing underlying write also returns `false`; and the file is (re)written
only when it did not exist or force is set. -/
theorem write_output_guarded (force : Bool) (env : OutEnv) (c : String) :
    (env.file.here = true → force = false →
      write_output force env c = (false, env.file)) ∧
    (env.writeOk = false → (write_output force env c).1 = false) ∧
    ((write_output force env c).1 = true →
      (env.file.here = false ∨ force = true) ∧
      (write_output force env c).2 = ⟨true, c⟩) := by
  refine ⟨fun hh hf => ?_, fun hw => ?_, fun hs => ?_⟩
  · simp [write_output, hh, hf]
  · by_cases hg : env.file.here && !force <;> simp [write_output, hg, hw]
  · by_cases hg : env.file.here && !force
    · simp [write_output, hg] at hs
    · rcases hw : env.writeOk with _ | _
      · simp [write_output, hg, hw] at hs
      · constructor
        · rcases hhere : env.file.here with _ | _
          · exact Or.inl rfl
          · right
            rcases hforce : force with _ | _
            · rw [hhere, hforce] at hg; simp at hg
            · rfl
        · simp [write_output, hg, hw]

/-- Witness for C8 at a concrete input: an existing file without force is
refused and left unchanged. -/
theorem write_output_guarded_witness :
    write_output false ⟨⟨true, "old"⟩, true, ⟨true, ""⟩⟩ "new" =
      (false, ⟨true, "old"⟩) :=
  (write_output_guarded false ⟨⟨true, "old"⟩, true, ⟨true, ""⟩⟩ "new").1
    rfl rfl

/-- C10: the empty mapping is a right identity of the deep merge on
mappings, and `read_data` with no declared data files returns the inline
data block unchanged (with an empty error log). -/
theorem merge_empty_right_identity (fields : List (String × JValue))
    (env : DataEnv) (inline : JValue) :
    merge (.obj fields) (.obj []) = .obj fields ∧
    read_data env inline [] = (some inline, []) :=
  ⟨rfl, rfl⟩

end Docfmt
